import Mathlib

/-!
Shallow embedding of the instanced-mesh editor in `src/App.tsx`
(repository thang2603/ThreeJs).

The program keeps a snapshot `InstancesData` of `count` instances as
flattened typed arrays (`positions`, `colors` of length `3*count`,
`selected` of length `count`) and transforms it with pure handlers
(add, delete-selected, deselect-all, selection on pointer-down,
move-selected during drag, single-instance edit) plus a per-frame
sync of the snapshot into the buffers of the render primitive.

Modelling conventions:
- scalar float components are modelled as `Rat` (exact values standing
  for the stored components; no claim here depends on rounding);
- `Float32Array` / `Uint8Array` become `List Rat` / `List Bool`
  (the `Uint8Array` flags only ever hold 0 or 1 in the source);
- reading slot `k` of an array is `List.getD k 0` (resp. `false`);
- `Math.random()` is an external oracle: functions that generate fresh
  instances take generator functions `freshPos`, `freshCol` producing
  the random position / HSL-derived colour of each new index;
- React `useState` / `useRef` cells become explicit state records
  (`ControllerState` for the drag refs, `AppState` for `data` and
  `editingIndex`), with each event handler an explicit state transformer.
-/

/-- A 3D vector with rational components (models `THREE.Vector3`
component-wise; also used for an RGB colour triple). -/
structure V3 where
  x : Rat
  y : Rat
  z : Rat
deriving DecidableEq, Repr

/-- Component-wise vector addition. -/
def V3.add (a b : V3) : V3 := ⟨a.x + b.x, a.y + b.y, a.z + b.z⟩

/-- Component-wise vector subtraction. -/
def V3.sub (a b : V3) : V3 := ⟨a.x - b.x, a.y - b.y, a.z - b.z⟩

/-- Scalar multiplication. -/
def V3.scale (t : Rat) (a : V3) : V3 := ⟨t * a.x, t * a.y, t * a.z⟩

/-- Dot product (models `THREE.Vector3.dot`). -/
def V3.dot (a b : V3) : Rat := a.x * b.x + a.y * b.y + a.z * b.z

/-- A plane in Hessian form (models `THREE.Plane`: unit-free normal and
`constant`, with the plane being the set of points `p` such that
`normal ⬝ p + constant = 0`). -/
structure Plane where
  normal : V3
  constant : Rat
deriving DecidableEq, Repr

/-- Models `THREE.Plane.setFromNormalAndCoplanarPoint`: keeps the normal and
sets `constant := -(point ⬝ normal)`. -/
def Plane.setFromNormalAndCoplanarPoint (n point : V3) : Plane :=
  { normal := n, constant := -(point.dot n) }

/-- Models `THREE.Plane.distanceToPoint` (signed distance, up to the norm of
the normal, which is irrelevant for the zero test used below). -/
def Plane.distanceToPoint (plane : Plane) (point : V3) : Rat :=
  plane.normal.dot point + plane.constant

/-- A ray (models `THREE.Ray`: origin plus direction). -/
structure Ray where
  origin : V3
  direction : V3
deriving DecidableEq, Repr

/-- Models `THREE.Ray.distanceToPlane`: `none` when the ray misses the plane
(parallel ray off the plane, or intersection behind the origin). -/
def Ray.distanceToPlane (ray : Ray) (plane : Plane) : Option Rat :=
  let denominator := plane.normal.dot ray.direction
  if denominator = 0 then
    if plane.distanceToPoint ray.origin = 0 then some 0 else none
  else
    let t := -(ray.origin.dot plane.normal + plane.constant) / denominator
    if 0 ≤ t then some t else none

/-- Models `THREE.Ray.intersectPlane`: the intersection point, or `none` when
the ray misses the plane.  In three.js the `target` vector is written only in
the `some` case; the `none` case leaves the target of the caller untouched, which
the caller in `handlePointerMove` models explicitly below. -/
def Ray.intersectPlane (ray : Ray) (plane : Plane) : Option V3 :=
  match ray.distanceToPlane plane with
  | none => none
  | some t => some (ray.origin.add (V3.scale t ray.direction))

/-- The `InstancesData` interface of `App.tsx` (lines 6-11): `count`
instances, flattened `positions` and `colors` (instance `i` at slots
`3*i .. 3*i+2`) and one selection flag per instance. -/
structure InstancesData where
  count : Nat
  positions : List Rat
  colors : List Rat
  selected : List Bool
deriving DecidableEq, Repr

/-- The structural invariant stated in the spec (section 3): both float
arrays hold exactly `3*count` slots and there is one flag per instance.
`count` is a `Nat`, so non-negativity is carried by the type. -/
def Wf (d : InstancesData) : Prop :=
  d.positions.length = 3 * d.count ∧
  d.colors.length = 3 * d.count ∧
  d.selected.length = d.count

instance (d : InstancesData) : Decidable (Wf d) := by
  unfold Wf; infer_instance

/-- Position triple of instance `i`, read the way every loop in the source
reads it: slots `3*i`, `3*i+1`, `3*i+2` of `positions`. -/
def instPos (d : InstancesData) (i : Nat) : V3 :=
  ⟨d.positions.getD (3 * i) 0, d.positions.getD (3 * i + 1) 0,
    d.positions.getD (3 * i + 2) 0⟩

/-- Colour triple of instance `i`, slots `3*i .. 3*i+2` of `colors`. -/
def instColor (d : InstancesData) (i : Nat) : V3 :=
  ⟨d.colors.getD (3 * i) 0, d.colors.getD (3 * i + 1) 0,
    d.colors.getD (3 * i + 2) 0⟩

/-- The `selectedCount` memo of `App.tsx` (lines 194-200): a linear scan of
`data.selected` counting set flags. -/
def selectedCount (d : InstancesData) : Nat :=
  d.selected.count true

/-- The flattened `[x, y, z]` triple of a vector, as written into a
`Float32Array` slot group. -/
def toTriple (v : V3) : List Rat := [v.x, v.y, v.z]

/-- `createInitialData` (lines 163-186): `n` instances with oracle-generated
positions and colours (the source draws them from `Math.random()`; the
oracles `freshPos`, `freshCol` stand for those draws) and all selection
flags cleared (`new Uint8Array(count)` is zero-initialised). -/
def createInitialData (n : Nat) (freshPos freshCol : Nat → V3) : InstancesData :=
  { count := n
  , positions := (List.range n).flatMap (fun i => toTriple (freshPos i))
  , colors := (List.range n).flatMap (fun i => toTriple (freshCol i))
  , selected := List.replicate n false }

/-- `handleAddInstances` (lines 209-233): allocate arrays for
`count + n` instances, copy the old data into the front (`TypedArray.set`),
keep the old selection flags and leave the new ones cleared, and fill the
new index range with oracle-generated positions and colours.  Under the
length invariant the typed-array copy is exactly list append. -/
def handleAddInstances (d : InstancesData) (n : Nat) (freshPos freshCol : Nat → V3) :
    InstancesData :=
  { count := d.count + n
  , positions :=
      d.positions ++ (List.range n).flatMap (fun k => toTriple (freshPos (d.count + k)))
  , colors :=
      d.colors ++ (List.range n).flatMap (fun k => toTriple (freshCol (d.count + k)))
  , selected := d.selected ++ List.replicate n false }

/-- The selection update of `handlePointerDown` (lines 70-78), applied to a
copy of `data.selected`: with shift held the flag at `instanceId` is
toggled; without shift an already-set flag leaves the array as it was,
otherwise the array is zero-filled and only `instanceId` is set. -/
def setSelection (sel : List Bool) (i : Nat) (shiftKey : Bool) : List Bool :=
  if shiftKey then
    sel.set i (!(sel.getD i false))
  else
    if sel.getD i false then sel
    else (List.replicate sel.length false).set i true

/-- The store update of `handleDeselectAll` (line 264): a fresh zero-filled flag
array of length `count`. -/
def deselectAll (d : InstancesData) : InstancesData :=
  { d with selected := List.replicate d.count false }

/-- The position-update loop of `handlePointerMove` (lines 120-129), by
instance index: starting from a copy `ps` of `positions`, for each
`i < n` whose flag is set, overwrite slots `3*i .. 3*i+2` with the original
`data.positions` value plus the delta component. -/
def moveLoop (d : InstancesData) (delta : V3) (ps : List Rat) : Nat → List Rat
  | 0 => ps
  | n + 1 =>
    let ps' := moveLoop d delta ps n
    if d.selected.getD n false then
      ((ps'.set (3 * n) (d.positions.getD (3 * n) 0 + delta.x)).set (3 * n + 1)
          (d.positions.getD (3 * n + 1) 0 + delta.y)).set (3 * n + 2)
        (d.positions.getD (3 * n + 2) 0 + delta.z)
    else ps'

/-- The store effect of one drag move (lines 120-137 without the session
bookkeeping): selected instances translated by `delta`, everything else
kept. -/
def moveSelected (d : InstancesData) (delta : V3) : InstancesData :=
  { d with positions := moveLoop d delta d.positions d.count }

/-- The store update of `handleSaveEdit` (lines 291-304): overwrite the
position and colour slots of instance `i` in copies of the arrays;
`count` and `selected` are untouched. -/
def editOne (d : InstancesData) (i : Nat) (newPosition newColor : V3) : InstancesData :=
  { d with
    positions :=
      ((d.positions.set (3 * i) newPosition.x).set (3 * i + 1) newPosition.y).set
        (3 * i + 2) newPosition.z
  , colors :=
      ((d.colors.set (3 * i) newColor.x).set (3 * i + 1) newColor.y).set
        (3 * i + 2) newColor.z }

/-- The copying loop of `handleDeleteSelected` (lines 241-257) over a list of
instance indices: unselected instances contribute their position and colour
triples, in order; selected ones are skipped. -/
def collectUnselected (d : InstancesData) : List Nat → List Rat × List Rat
  | [] => ([], [])
  | i :: rest =>
    let tail := collectUnselected d rest
    if d.selected.getD i false then tail
    else
      (d.positions.getD (3 * i) 0 :: d.positions.getD (3 * i + 1) 0 ::
          d.positions.getD (3 * i + 2) 0 :: tail.1,
        d.colors.getD (3 * i) 0 :: d.colors.getD (3 * i + 1) 0 ::
          d.colors.getD (3 * i + 2) 0 :: tail.2)

/-- The store update of `handleDeleteSelected` (lines 235-259): keep, in original
order, the instances whose flag is clear; the new count is
`count - selectedCount`; the new flag array is zero-initialised. -/
def deleteSelected (d : InstancesData) : InstancesData :=
  let newCount := d.count - selectedCount d
  let kept := collectUnselected d (List.range d.count)
  { count := newCount
  , positions := kept.1
  , colors := kept.2
  , selected := List.replicate newCount false }

/-- The indices of the unselected instances, in original order: the
characterisation the spec uses for the output of `deleteSelected`. -/
def keptIndices (d : InstancesData) : List Nat :=
  (List.range d.count).filter (fun i => !(d.selected.getD i false))

/-- The drag-session state of `DraggableInstances` (lines 22-26): the
`isDragging` / `draggedIndex` React state and the `planeRef`,
`intersectionPoint` and `dragStartPos` refs.  `intersectionPoint` is the
persistent `Vector3` ref that `Ray.intersectPlane` writes into on success
and leaves untouched on a miss. -/
structure ControllerState where
  isDragging : Bool
  draggedIndex : Option Nat
  plane : Plane
  intersectionPoint : V3
  dragStartPos : V3
deriving DecidableEq, Repr

/-- The fields of a pointer-down event the handler reads: the resolved
instance index under the pointer, if any, and the shift modifier. -/
structure PointerDownEvent where
  instanceId : Option Nat
  shiftKey : Bool
deriving DecidableEq, Repr

/-- `handlePointerDown` (lines 64-107).  `camNormal` models
`(0,0,1).applyQuaternion(camera.quaternion)`, the camera-facing normal.
Out-of-range or unresolved `instanceId`: nothing happens.  Otherwise the
selection is updated per `setSelection`; if the resulting selection is
non-empty a drag session starts: `dragStartPos` is the current position of
instance `instanceId` and the drag plane is set through it with `camNormal`. -/
def handlePointerDown (st : ControllerState) (d : InstancesData) (camNormal : V3)
    (e : PointerDownEvent) : ControllerState × InstancesData :=
  match e.instanceId with
  | none => (st, d)
  | some i =>
    if i < d.count then
      let newSelected := setSelection d.selected i e.shiftKey
      let d' := { d with selected := newSelected }
      if 0 < newSelected.count true then
        let startPos := instPos d i
        ({ st with
            isDragging := true
          , draggedIndex := some i
          , dragStartPos := startPos
          , plane := Plane.setFromNormalAndCoplanarPoint camNormal startPos }, d')
      else (st, d')
    else (st, d)

/-- `handlePointerMove` (lines 109-139).  When no drag is active the event is
dropped.  Otherwise the ray is intersected with the session plane: on a hit
the `intersectionPoint` ref is overwritten, on a miss it keeps its previous
value (three.js leaves the target untouched).  The subsequent source guard
`if (intersectionPoint.current)` tests the `Vector3` object held by the ref,
which is
always truthy, so the move body runs unconditionally with whatever value the
ref holds: selected instances are translated by
`intersectionPoint - dragStartPos` and `dragStartPos` is set to
`intersectionPoint`. -/
def handlePointerMove (st : ControllerState) (d : InstancesData) (ray : Ray) :
    ControllerState × InstancesData :=
  if st.isDragging = false ∨ st.draggedIndex = none then (st, d)
  else
    let ip :=
      match ray.intersectPlane st.plane with
      | some p => p
      | none => st.intersectionPoint
    let delta := ip.sub st.dragStartPos
    ({ st with intersectionPoint := ip, dragStartPos := ip }, moveSelected d delta)

/-- `handlePointerUp` (lines 141-144): the drag session ends. -/
def handlePointerUp (st : ControllerState) : ControllerState :=
  { st with isDragging := false, draggedIndex := none }

/-- The state of the `App` component (lines 189-190) as far as the claims need
it: the canonical `InstancesData` and the index of the open edit session
(`editingIndex`, `none` when no edit session is open). -/
structure AppState where
  data : InstancesData
  editingIndex : Option Nat
deriving DecidableEq, Repr

/-- `handleDeleteSelected` at `App` level (lines 235-261): apply the store
update and close any open edit session (`setEditingIndex(null)`). -/
def handleDeleteSelected (s : AppState) : AppState :=
  { data := deleteSelected s.data, editingIndex := none }

/-- `handleDeselectAll` (lines 263-267): zero-fill the selection flags and
close any open edit session (`setEditingIndex(null)`). -/
def handleDeselectAll (s : AppState) : AppState :=
  { data := deselectAll s.data, editingIndex := none }

/-- `handleSaveEdit` (lines 289-307): with an edit session open on index
`i`, commit the position and colour of the session (the stored components of the
parsed hex colour) into the store and close the session; with no session
open, nothing happens. -/
def handleSaveEdit (s : AppState) (editPosition editColor : V3) : AppState :=
  match s.editingIndex with
  | none => s
  | some i =>
    { data := editOne s.data i editPosition editColor, editingIndex := none }

/-- The per-frame buffer writes of the `useFrame` callback (lines 32-62):
which transform and colour slots are written with what, and which buffers
are marked dirty. -/
structure FrameWrites where
  matrixWrites : List (Nat × V3)
  colorWrites : List (Nat × V3)
  matrixDirty : Bool
  colorDirty : Bool
deriving DecidableEq, Repr

/-- The fixed selection-highlight colour (line 30): yellow. -/
def yellowColor : V3 := ⟨1, 1, 0⟩

/-- The `useFrame` callback (lines 32-62): with `count = 0` (or no mesh,
which per line 146 happens exactly when `count = 0`) it returns before
touching any buffer; otherwise the translation matrix of every instance is
written, its colour slot gets yellow when selected and the stored colour
otherwise, the matrix buffer is marked dirty, and the colour buffer is
marked dirty when the mesh has one (`hasColorBuffer`). -/
def frameSync (d : InstancesData) (hasColorBuffer : Bool) : FrameWrites :=
  if d.count = 0 then
    { matrixWrites := [], colorWrites := [], matrixDirty := false, colorDirty := false }
  else
    { matrixWrites := (List.range d.count).map (fun i => (i, instPos d i))
    , colorWrites :=
        (List.range d.count).map
          (fun i => (i, if d.selected.getD i false then yellowColor else instColor d i))
    , matrixDirty := true
    , colorDirty := hasColorBuffer }

/-- Whether `DraggableInstances` instantiates the `instancedMesh` at all
(line 146: `if (data.count === 0) return null`). -/
def rendersInstancedMesh (d : InstancesData) : Bool :=
  if d.count = 0 then false else true

/-! Helper lemmas about list indexing, shared by the claim proofs. -/

theorem getD_set_self {α : Type} (l : List α) (n : Nat) (v d : α) (h : n < l.length) :
    (l.set n v).getD n d = v := by
  rw [List.getD_eq_getElem?_getD, List.getElem?_set_self h]
  rfl

theorem getD_set_ne {α : Type} (l : List α) (n m : Nat) (v d : α) (h : n ≠ m) :
    (l.set n v).getD m d = l.getD m d := by
  rw [List.getD_eq_getElem?_getD, List.getElem?_set_ne h, ← List.getD_eq_getElem?_getD]

theorem getD_replicate {α : Type} (n k : Nat) (a : α) :
    (List.replicate n a).getD k a = a := by
  induction n generalizing k with
  | zero => rfl
  | succ n ih =>
    rw [List.replicate_succ]
    cases k with
    | zero => rfl
    | succ k => rw [List.getD_cons_succ]; exact ih k

theorem count_true_add_count_false (bs : List Bool) :
    bs.count true + bs.count false = bs.length := by
  induction bs with
  | nil => rfl
  | cons b t ih =>
    cases b <;> simp [List.count_cons] <;> omega

theorem range_filter_not_getD (bs : List Bool) :
    ((List.range bs.length).filter fun i => !(bs.getD i false)).length =
      bs.count false := by
  induction bs with
  | nil => rfl
  | cons b t ih =>
    have h1 : List.range (b :: t).length =
        0 :: List.map Nat.succ (List.range t.length) := by
      simp [List.range_succ_eq_map]
    have h2 : ((fun i => !((b :: t).getD i false)) ∘ Nat.succ) =
        fun i => !(t.getD i false) := by
      funext i
      simp [Function.comp, List.getD_cons_succ]
    rw [h1, List.filter_cons, List.filter_map, h2]
    cases b with
    | false =>
      rw [if_pos (by simp), List.length_cons, List.length_map, ih]
      simp [List.count_cons]
    | true =>
      rw [if_neg (by simp), List.length_map, ih]
      simp [List.count_cons]

theorem flatMap_toTriple_length (g : Nat → V3) (L : List Nat) :
    (L.flatMap fun i => toTriple (g i)).length = 3 * L.length := by
  induction L with
  | nil => rfl
  | cons a L ih =>
    rw [List.flatMap_cons, List.length_append, ih, List.length_cons]
    simp only [toTriple, List.length_cons, List.length_nil]
    omega

theorem flatMap_toTriple_getD (g : Nat → V3) (L : List Nat) (j r : Nat)
    (hj : j < L.length) (hr : r < 3) :
    (L.flatMap fun i => toTriple (g i)).getD (3 * j + r) 0 =
      (toTriple (g (L.getD j 0))).getD r 0 := by
  induction L generalizing j with
  | nil => simp at hj
  | cons a L ih =>
    rw [List.flatMap_cons]
    cases j with
    | zero =>
      rw [List.getD_cons_zero]
      have h3 : 3 * 0 + r < (toTriple (g a)).length := by
        simp [toTriple]; omega
      rw [List.getD_append _ _ _ _ h3]
      simp
    | succ j =>
      have hlen : (toTriple (g a)).length ≤ 3 * (j + 1) + r := by
        simp [toTriple]; omega
      rw [List.getD_append_right _ _ _ _ hlen, List.getD_cons_succ]
      have harith : 3 * (j + 1) + r - (toTriple (g a)).length = 3 * j + r := by
        simp [toTriple]; omega
      rw [harith]
      exact ih j (by simpa using hj)

theorem collectUnselected_eq (d : InstancesData) (L : List Nat) :
    collectUnselected d L =
      ((L.filter fun i => !(d.selected.getD i false)).flatMap
          (fun i => toTriple (instPos d i)),
        (L.filter fun i => !(d.selected.getD i false)).flatMap
          (fun i => toTriple (instColor d i))) := by
  induction L with
  | nil => rfl
  | cons a L ih =>
    rw [collectUnselected, List.filter_cons, ih]
    cases h : d.selected.getD a false with
    | true => simp [h]
    | false => simp [h, toTriple, instPos, instColor]

theorem moveLoop_length (d : InstancesData) (delta : V3) (ps : List Rat) (n : Nat) :
    (moveLoop d delta ps n).length = ps.length := by
  induction n with
  | zero => rfl
  | succ n ih =>
    simp only [moveLoop]
    split
    · simp only [List.length_set]
      exact ih
    · exact ih

theorem moveLoop_getD_ge (d : InstancesData) (delta : V3) (ps : List Rat) (n k : Nat)
    (hk : 3 * n ≤ k) :
    (moveLoop d delta ps n).getD k 0 = ps.getD k 0 := by
  induction n with
  | zero => rfl
  | succ n ih =>
    simp only [moveLoop]
    split
    · rw [getD_set_ne _ _ _ _ _ (by omega), getD_set_ne _ _ _ _ _ (by omega),
        getD_set_ne _ _ _ _ _ (by omega)]
      exact ih (by omega)
    · exact ih (by omega)

theorem moveLoop_getD_lt (d : InstancesData) (delta : V3) (n i r : Nat)
    (h : d.positions.length = 3 * d.count) (hn : n ≤ d.count) (hi : i < n) (hr : r < 3) :
    (moveLoop d delta d.positions n).getD (3 * i + r) 0 =
      if d.selected.getD i false then
        d.positions.getD (3 * i + r) 0 + (toTriple delta).getD r 0
      else d.positions.getD (3 * i + r) 0 := by
  induction n with
  | zero => omega
  | succ n ih =>
    have hlen : (moveLoop d delta d.positions n).length = 3 * d.count := by
      rw [moveLoop_length]; exact h
    by_cases hin : i = n
    · subst hin
      simp only [moveLoop]
      by_cases hsel : d.selected.getD i false = true
      · rw [if_pos hsel, if_pos hsel]
        have hr3 : r = 0 ∨ r = 1 ∨ r = 2 := by omega
        rcases hr3 with hr0 | hr1 | hr2
        · subst hr0
          simp only [Nat.add_zero]
          rw [getD_set_ne _ _ _ _ _ (by omega), getD_set_ne _ _ _ _ _ (by omega),
            getD_set_self _ _ _ _ (by rw [hlen]; omega)]
          rfl
        · subst hr1
          rw [getD_set_ne _ _ _ _ _ (by omega),
            getD_set_self _ _ _ _ (by rw [List.length_set, hlen]; omega)]
          rfl
        · subst hr2
          rw [getD_set_self _ _ _ _
            (by rw [List.length_set, List.length_set, hlen]; omega)]
          rfl
      · rw [if_neg hsel, if_neg hsel]
        exact moveLoop_getD_ge d delta d.positions i (3 * i + r) (by omega)
    · have hi' : i < n := by omega
      simp only [moveLoop]
      split
      · rw [getD_set_ne _ _ _ _ _ (by omega), getD_set_ne _ _ _ _ _ (by omega),
          getD_set_ne _ _ _ _ _ (by omega)]
        exact ih (by omega) hi'
      · exact ih (by omega) hi'

theorem keptIndices_length (d : InstancesData) (h : d.selected.length = d.count) :
    (keptIndices d).length = d.count - selectedCount d := by
  unfold keptIndices selectedCount
  rw [← h, range_filter_not_getD]
  have hcount := count_true_add_count_false d.selected
  omega

theorem flatMap_toTriple_read (g : Nat → V3) (L : List Nat) (j : Nat)
    (hj : j < L.length) :
    (⟨(L.flatMap fun i => toTriple (g i)).getD (3 * j) 0,
      (L.flatMap fun i => toTriple (g i)).getD (3 * j + 1) 0,
      (L.flatMap fun i => toTriple (g i)).getD (3 * j + 2) 0⟩ : V3) =
      g (L.getD j 0) := by
  have h0 := flatMap_toTriple_getD g L j 0 hj (by omega)
  have h1 := flatMap_toTriple_getD g L j 1 hj (by omega)
  have h2 := flatMap_toTriple_getD g L j 2 hj (by omega)
  simp only [Nat.add_zero] at h0
  rw [h0, h1, h2]
  rfl

theorem deleteSelected_positions (d : InstancesData) :
    (deleteSelected d).positions =
      (keptIndices d).flatMap fun i => toTriple (instPos d i) := by
  show (collectUnselected d (List.range d.count)).1 = _
  rw [collectUnselected_eq]
  rfl

theorem deleteSelected_colors (d : InstancesData) :
    (deleteSelected d).colors =
      (keptIndices d).flatMap fun i => toTriple (instColor d i) := by
  show (collectUnselected d (List.range d.count)).2 = _
  rw [collectUnselected_eq]
  rfl

theorem setSelection_length (sel : List Bool) (i : Nat) (shiftKey : Bool) :
    (setSelection sel i shiftKey).length = sel.length := by
  unfold setSelection
  split
  · exact List.length_set sel i _
  · split
    · rfl
    · rw [List.length_set, List.length_replicate]

/-- Example snapshot used by witness theorems: three well-formed instances,
the middle one selected. -/
def dEx : InstancesData :=
  { count := 3
  , positions := [1, 2, 3, 4, 5, 6, 7, 8, 9]
  , colors := [1, 0, 0, 0, 1, 0, 0, 0, 1]
  , selected := [false, true, false] }

/-- C1: `deleteSelected` keeps exactly the unselected instances, in their
original relative order (`deleteSelected` agrees instance-by-instance with
the unselected original indices `keptIndices`), its count drops by
`selectedCount`, and every flag in the result is cleared. -/
theorem deleteSelected_partition (d : InstancesData) (h : Wf d) :
    (deleteSelected d).count = d.count - selectedCount d ∧
    (deleteSelected d).count = (keptIndices d).length ∧
    (∀ j, j < (keptIndices d).length →
      instPos (deleteSelected d) j = instPos d ((keptIndices d).getD j 0) ∧
      instColor (deleteSelected d) j = instColor d ((keptIndices d).getD j 0)) ∧
    (∀ b ∈ (deleteSelected d).selected, b = false) := by
  refine ⟨rfl, (keptIndices_length d h.2.2).symm, ?_, ?_⟩
  · intro j hj
    constructor
    · simp only [instPos, deleteSelected_positions]
      exact flatMap_toTriple_read (fun i => instPos d i) (keptIndices d) j hj
    · simp only [instColor, deleteSelected_colors]
      exact flatMap_toTriple_read (fun i => instColor d i) (keptIndices d) j hj
  · intro b hb
    exact List.eq_of_mem_replicate hb

/-- Witness for C1 at the concrete snapshot `dEx`. -/
theorem deleteSelected_partition_witness :
    Wf dEx ∧
    ((deleteSelected dEx).count = dEx.count - selectedCount dEx ∧
      (deleteSelected dEx).count = (keptIndices dEx).length ∧
      (∀ j, j < (keptIndices dEx).length →
        instPos (deleteSelected dEx) j = instPos dEx ((keptIndices dEx).getD j 0) ∧
        instColor (deleteSelected dEx) j = instColor dEx ((keptIndices dEx).getD j 0)) ∧
      (∀ b ∈ (deleteSelected dEx).selected, b = false)) :=
  ⟨by decide, deleteSelected_partition dEx (by decide)⟩

/-- C6: every store operation (`createInitialData`, `handleAddInstances`,
the `setSelection` update, `deselectAll`, `moveSelected`, `editOne`,
`deleteSelected`) yields a snapshot satisfying the structural invariant
`positions.length = colors.length = 3*count` and `selected.length = count`
(`count : Nat`, so it is non-negative by type). -/
theorem operations_preserve_Wf (d : InstancesData) (n i : Nat) (shiftKey : Bool)
    (delta p c : V3) (freshPos freshCol : Nat → V3) (h : Wf d) :
    Wf (createInitialData n freshPos freshCol) ∧
    Wf (handleAddInstances d n freshPos freshCol) ∧
    Wf { d with selected := setSelection d.selected i shiftKey } ∧
    Wf (deselectAll d) ∧
    Wf (moveSelected d delta) ∧
    Wf (editOne d i p c) ∧
    Wf (deleteSelected d) := by
  obtain ⟨hp, hc, hs⟩ := h
  refine ⟨⟨?_, ?_, ?_⟩, ⟨?_, ?_, ?_⟩, ⟨hp, hc, ?_⟩, ⟨hp, hc, ?_⟩,
    ⟨?_, hc, hs⟩, ⟨?_, ?_, hs⟩, ⟨?_, ?_, ?_⟩⟩
  · show ((List.range n).flatMap fun k => toTriple (freshPos k)).length = 3 * n
    rw [flatMap_toTriple_length, List.length_range]
  · show ((List.range n).flatMap fun k => toTriple (freshCol k)).length = 3 * n
    rw [flatMap_toTriple_length, List.length_range]
  · exact List.length_replicate n false
  · show (d.positions ++ _).length = 3 * (d.count + n)
    rw [List.length_append, hp, flatMap_toTriple_length, List.length_range]
    omega
  · show (d.colors ++ _).length = 3 * (d.count + n)
    rw [List.length_append, hc, flatMap_toTriple_length, List.length_range]
    omega
  · show (d.selected ++ _).length = d.count + n
    rw [List.length_append, hs, List.length_replicate]
  · show (setSelection d.selected i shiftKey).length = d.count
    rw [setSelection_length, hs]
  · exact (List.length_replicate d.count false)
  · show (moveLoop d delta d.positions d.count).length = 3 * d.count
    rw [moveLoop_length, hp]
  · show (((d.positions.set _ _).set _ _).set _ _).length = 3 * d.count
    rw [List.length_set, List.length_set, List.length_set, hp]
  · show (((d.colors.set _ _).set _ _).set _ _).length = 3 * d.count
    rw [List.length_set, List.length_set, List.length_set, hc]
  · show (deleteSelected d).positions.length = 3 * (deleteSelected d).count
    rw [deleteSelected_positions, flatMap_toTriple_length, keptIndices_length d hs]
    rfl
  · show (deleteSelected d).colors.length = 3 * (deleteSelected d).count
    rw [deleteSelected_colors, flatMap_toTriple_length, keptIndices_length d hs]
    rfl
  · exact List.length_replicate _ false

/-- Witness for C6 at a concrete snapshot and concrete arguments. -/
theorem operations_preserve_Wf_witness :
    Wf dEx ∧
    (Wf (createInitialData 2 (fun k => ⟨k, 0, 0⟩) (fun k => ⟨0, k, 0⟩)) ∧
      Wf (handleAddInstances dEx 2 (fun k => ⟨k, 0, 0⟩) (fun k => ⟨0, k, 0⟩)) ∧
      Wf { dEx with selected := setSelection dEx.selected 1 false } ∧
      Wf (deselectAll dEx) ∧
      Wf (moveSelected dEx ⟨1, 2, 3⟩) ∧
      Wf (editOne dEx 1 ⟨1, 2, 3⟩ ⟨1, 0, 1⟩) ∧
      Wf (deleteSelected dEx)) :=
  ⟨by decide,
    operations_preserve_Wf dEx 2 1 false ⟨1, 2, 3⟩ ⟨1, 2, 3⟩ ⟨1, 0, 1⟩
      (fun k => ⟨k, 0, 0⟩) (fun k => ⟨0, k, 0⟩) (by decide)⟩

/-- C2: a plain (non-shift) click resolved to an in-range index leaves the
selection array unchanged when that index is already selected, and otherwise
clears every flag and sets exactly that index. -/
theorem setSelection_exclusiveOrExtend (sel : List Bool) (i : Nat)
    (h : i < sel.length) :
    (sel.getD i false = true → setSelection sel i false = sel) ∧
    (sel.getD i false = false →
      ∀ j, j < sel.length →
        (setSelection sel i false).getD j false = if j = i then true else false) := by
  constructor
  · intro hs
    unfold setSelection
    rw [if_neg (by simp), if_pos hs]
  · intro hs j hj
    unfold setSelection
    rw [if_neg (by simp), if_neg (by intro hc; rw [hs] at hc; exact Bool.false_ne_true hc)]
    by_cases hji : j = i
    · subst hji
      rw [getD_set_self _ _ _ _ (by rw [List.length_replicate]; exact h), if_pos rfl]
    · rw [getD_set_ne _ _ _ _ _ (fun hh => hji hh.symm), getD_replicate, if_neg hji]

/-- Witness for C2 at a concrete selection array and index. -/
theorem setSelection_exclusiveOrExtend_witness :
    1 < [true, false, true].length ∧
    (([true, false, true].getD 1 false = true →
        setSelection [true, false, true] 1 false = [true, false, true]) ∧
      ([true, false, true].getD 1 false = false →
        ∀ j, j < [true, false, true].length →
          (setSelection [true, false, true] 1 false).getD j false =
            if j = 1 then true else false)) :=
  ⟨by decide, setSelection_exclusiveOrExtend [true, false, true] 1 (by decide)⟩

/-- C3: `moveSelected` translates exactly the selected instances by `delta`
and leaves unselected positions, the colours, the flags and the count
untouched. -/
theorem moveSelected_spec (d : InstancesData) (delta : V3) (h : Wf d) :
    (moveSelected d delta).count = d.count ∧
    (moveSelected d delta).colors = d.colors ∧
    (moveSelected d delta).selected = d.selected ∧
    ∀ i, i < d.count →
      instPos (moveSelected d delta) i =
        (if d.selected.getD i false then (instPos d i).add delta else instPos d i) := by
  refine ⟨rfl, rfl, rfl, ?_⟩
  intro i hi
  have h0 := moveLoop_getD_lt d delta d.count i 0 h.1 (le_refl _) hi (by omega)
  have h1 := moveLoop_getD_lt d delta d.count i 1 h.1 (le_refl _) hi (by omega)
  have h2 := moveLoop_getD_lt d delta d.count i 2 h.1 (le_refl _) hi (by omega)
  simp only [Nat.add_zero] at h0
  by_cases hsel : d.selected.getD i false = true
  · rw [if_pos hsel] at h0 h1 h2 ⊢
    simp only [moveSelected, instPos, V3.add]
    rw [h0, h1, h2]
    rfl
  · rw [if_neg hsel] at h0 h1 h2 ⊢
    simp only [moveSelected, instPos]
    rw [h0, h1, h2]

/-- Witness for C3 at the concrete snapshot `dEx`. -/
theorem moveSelected_spec_witness :
    Wf dEx ∧
    ((moveSelected dEx ⟨1, 0, 2⟩).count = dEx.count ∧
      (moveSelected dEx ⟨1, 0, 2⟩).colors = dEx.colors ∧
      (moveSelected dEx ⟨1, 0, 2⟩).selected = dEx.selected ∧
      ∀ i, i < dEx.count →
        instPos (moveSelected dEx ⟨1, 0, 2⟩) i =
          (if dEx.selected.getD i false then (instPos dEx i).add ⟨1, 0, 2⟩
            else instPos dEx i)) :=
  ⟨by decide, moveSelected_spec dEx ⟨1, 0, 2⟩ (by decide)⟩

/-- C5: `handleAddInstances` adds exactly `n` instances: the count grows by
`n`, the first `count` positions, colours and flags are untouched, and the
`n` new flags are all clear. -/
theorem handleAddInstances_spec (d : InstancesData) (n : Nat)
    (freshPos freshCol : Nat → V3) (h : Wf d) :
    (handleAddInstances d n freshPos freshCol).count = d.count + n ∧
    (∀ i, i < d.count →
      instPos (handleAddInstances d n freshPos freshCol) i = instPos d i ∧
      instColor (handleAddInstances d n freshPos freshCol) i = instColor d i ∧
      (handleAddInstances d n freshPos freshCol).selected.getD i false =
        d.selected.getD i false) ∧
    ∀ k, k < n →
      (handleAddInstances d n freshPos freshCol).selected.getD (d.count + k) false =
        false := by
  refine ⟨rfl, ?_, ?_⟩
  · intro i hi
    refine ⟨?_, ?_, ?_⟩
    · simp only [instPos, handleAddInstances]
      rw [List.getD_append _ _ _ _ (by rw [h.1]; omega),
        List.getD_append _ _ _ _ (by rw [h.1]; omega),
        List.getD_append _ _ _ _ (by rw [h.1]; omega)]
    · simp only [instColor, handleAddInstances]
      rw [List.getD_append _ _ _ _ (by rw [h.2.1]; omega),
        List.getD_append _ _ _ _ (by rw [h.2.1]; omega),
        List.getD_append _ _ _ _ (by rw [h.2.1]; omega)]
    · show (d.selected ++ List.replicate n false).getD i false = d.selected.getD i false
      rw [List.getD_append _ _ _ _ (by rw [h.2.2]; omega)]
  · intro k hk
    show (d.selected ++ List.replicate n false).getD (d.count + k) false = false
    rw [List.getD_append_right _ _ _ _ (by rw [h.2.2]; omega)]
    rw [h.2.2]
    have harith : d.count + k - d.count = k := by omega
    rw [harith, getD_replicate]

/-- Witness for C5 at the concrete snapshot `dEx` with two fresh instances. -/
theorem handleAddInstances_spec_witness :
    Wf dEx ∧
    ((handleAddInstances dEx 2 (fun k => ⟨k, 1, 0⟩) (fun k => ⟨0, 1, k⟩)).count =
        dEx.count + 2 ∧
      (∀ i, i < dEx.count →
        instPos (handleAddInstances dEx 2 (fun k => ⟨k, 1, 0⟩) (fun k => ⟨0, 1, k⟩)) i =
          instPos dEx i ∧
        instColor (handleAddInstances dEx 2 (fun k => ⟨k, 1, 0⟩) (fun k => ⟨0, 1, k⟩)) i =
          instColor dEx i ∧
        (handleAddInstances dEx 2 (fun k => ⟨k, 1, 0⟩)
              (fun k => ⟨0, 1, k⟩)).selected.getD i false =
          dEx.selected.getD i false) ∧
      ∀ k, k < 2 →
        (handleAddInstances dEx 2 (fun k => ⟨k, 1, 0⟩)
              (fun k => ⟨0, 1, k⟩)).selected.getD (dEx.count + k) false = false) :=
  ⟨by decide,
    handleAddInstances_spec dEx 2 (fun k => ⟨k, 1, 0⟩) (fun k => ⟨0, 1, k⟩) (by decide)⟩

/-- C7: committing an edit and reading the same index back returns exactly
the stored written position and colour components, and the selection flags
are untouched. -/
theorem editOne_roundtrip (d : InstancesData) (i : Nat) (p c : V3)
    (h : Wf d) (hi : i < d.count) :
    instPos (editOne d i p c) i = p ∧
    instColor (editOne d i p c) i = c ∧
    (editOne d i p c).selected = d.selected := by
  refine ⟨?_, ?_, rfl⟩
  · obtain ⟨px, py, pz⟩ := p
    simp only [instPos, editOne, V3.mk.injEq]
    refine ⟨?_, ?_, ?_⟩
    · rw [getD_set_ne _ _ _ _ _ (by omega), getD_set_ne _ _ _ _ _ (by omega),
        getD_set_self _ _ _ _ (by rw [h.1]; omega)]
    · rw [getD_set_ne _ _ _ _ _ (by omega),
        getD_set_self _ _ _ _ (by rw [List.length_set, h.1]; omega)]
    · rw [getD_set_self _ _ _ _ (by rw [List.length_set, List.length_set, h.1]; omega)]
  · obtain ⟨cx, cy, cz⟩ := c
    simp only [instColor, editOne, V3.mk.injEq]
    refine ⟨?_, ?_, ?_⟩
    · rw [getD_set_ne _ _ _ _ _ (by omega), getD_set_ne _ _ _ _ _ (by omega),
        getD_set_self _ _ _ _ (by rw [h.2.1]; omega)]
    · rw [getD_set_ne _ _ _ _ _ (by omega),
        getD_set_self _ _ _ _ (by rw [List.length_set, h.2.1]; omega)]
    · rw [getD_set_self _ _ _ _
        (by rw [List.length_set, List.length_set, h.2.1]; omega)]

/-- Witness for C7 at the concrete snapshot `dEx`. -/
theorem editOne_roundtrip_witness :
    (Wf dEx ∧ 2 < dEx.count) ∧
    (instPos (editOne dEx 2 ⟨7, 7, 7⟩ ⟨1, 1, 0⟩) 2 = ⟨7, 7, 7⟩ ∧
      instColor (editOne dEx 2 ⟨7, 7, 7⟩ ⟨1, 1, 0⟩) 2 = ⟨1, 1, 0⟩ ∧
      (editOne dEx 2 ⟨7, 7, 7⟩ ⟨1, 1, 0⟩).selected = dEx.selected) :=
  ⟨⟨by decide, by decide⟩,
    editOne_roundtrip dEx 2 ⟨7, 7, 7⟩ ⟨1, 1, 0⟩ (by decide) (by decide)⟩

/-- C8: a pointer-down whose event carries no resolved instance index, or an
index at or beyond `count`, changes nothing: the snapshot is returned as-is
and the controller state (so in particular the drag session) is untouched. -/
theorem pointerDown_out_of_range (st : ControllerState) (d : InstancesData)
    (camNormal : V3) (e : PointerDownEvent)
    (h : e.instanceId = none ∨ ∃ i, e.instanceId = some i ∧ d.count ≤ i) :
    handlePointerDown st d camNormal e = (st, d) := by
  rcases h with h | ⟨i, hi, hge⟩
  · simp only [handlePointerDown, h]
  · simp only [handlePointerDown, hi]
    rw [if_neg (by omega)]

/-- Controller state used by the C8 witness: an idle controller. -/
def stIdleEx : ControllerState :=
  { isDragging := false
  , draggedIndex := none
  , plane := { normal := ⟨0, 0, 1⟩, constant := 0 }
  , intersectionPoint := ⟨0, 0, 0⟩
  , dragStartPos := ⟨0, 0, 0⟩ }

/-- Witness for C8: an out-of-range index (5 on a 3-instance snapshot). -/
theorem pointerDown_out_of_range_witness :
    ((⟨some 5, false⟩ : PointerDownEvent).instanceId = none ∨
      ∃ i, (⟨some 5, false⟩ : PointerDownEvent).instanceId = some i ∧
        dEx.count ≤ i) ∧
    handlePointerDown stIdleEx dEx ⟨0, 0, 1⟩ ⟨some 5, false⟩ = (stIdleEx, dEx) :=
  ⟨Or.inr ⟨5, rfl, by decide⟩,
    pointerDown_out_of_range stIdleEx dEx ⟨0, 0, 1⟩ ⟨some 5, false⟩
      (Or.inr ⟨5, rfl, by decide⟩)⟩

/-- C9: with `count = 0` the per-frame sync writes no buffer slot and marks
no buffer dirty, and the `instancedMesh` primitive is not instantiated. -/
theorem frameSync_empty (d : InstancesData) (hasColorBuffer : Bool)
    (h : d.count = 0) :
    frameSync d hasColorBuffer =
      { matrixWrites := [], colorWrites := [], matrixDirty := false
      , colorDirty := false } ∧
    rendersInstancedMesh d = false := by
  constructor
  · unfold frameSync
    rw [if_pos h]
  · unfold rendersInstancedMesh
    rw [if_pos h]

/-- Witness for C9 at the empty snapshot produced by `createInitialData 0`. -/
theorem frameSync_empty_witness :
    (createInitialData 0 (fun _ => ⟨0, 0, 0⟩) (fun _ => ⟨0, 0, 0⟩)).count = 0 ∧
    (frameSync (createInitialData 0 (fun _ => ⟨0, 0, 0⟩) (fun _ => ⟨0, 0, 0⟩)) true =
        { matrixWrites := [], colorWrites := [], matrixDirty := false
        , colorDirty := false } ∧
      rendersInstancedMesh
          (createInitialData 0 (fun _ => ⟨0, 0, 0⟩) (fun _ => ⟨0, 0, 0⟩)) = false) :=
  ⟨rfl,
    frameSync_empty (createInitialData 0 (fun _ => ⟨0, 0, 0⟩) (fun _ => ⟨0, 0, 0⟩))
      true rfl⟩

/-- C10: with an edit session open, `handleDeselectAll` both clears every
selection flag and closes the edit session (`editingIndex` becomes `none`). -/
theorem handleDeselectAll_closes_edit (s : AppState) (i : Nat)
    (_h : s.editingIndex = some i) :
    (handleDeselectAll s).editingIndex = none ∧
    ∀ b ∈ (handleDeselectAll s).data.selected, b = false := by
  refine ⟨rfl, ?_⟩
  intro b hb
  exact List.eq_of_mem_replicate hb

/-- Witness for C10 at a concrete app state with an open edit session. -/
theorem handleDeselectAll_closes_edit_witness :
    (AppState.mk dEx (some 1)).editingIndex = some 1 ∧
    ((handleDeselectAll (AppState.mk dEx (some 1))).editingIndex = none ∧
      ∀ b ∈ (handleDeselectAll (AppState.mk dEx (some 1))).data.selected, b = false) :=
  ⟨rfl, handleDeselectAll_closes_edit (AppState.mk dEx (some 1)) 1 rfl⟩

/-- Dragging controller state used for the C4 evaluation: a drag session on
instance 0 whose plane is `z = 1`, with the `intersectionPoint` ref still
holding its initial value `(0,0,0)` (the `new THREE.Vector3()` of line 25)
and the drag anchored at `(5,0,0)`. -/
def stDragEx : ControllerState :=
  { isDragging := true
  , draggedIndex := some 0
  , plane := { normal := ⟨0, 0, 1⟩, constant := -1 }
  , intersectionPoint := ⟨0, 0, 0⟩
  , dragStartPos := ⟨5, 0, 0⟩ }

/-- One-instance snapshot used for the C4 evaluation: the dragged instance
sits at `(5,0,0)` and is selected. -/
def dDragEx : InstancesData :=
  { count := 1, positions := [5, 0, 0], colors := [1, 0, 0], selected := [true] }

/-- A pointer ray parallel to the drag plane of `stDragEx` and off it:
direction `(1,0,0)` against normal `(0,0,1)`. -/
def rayParallelEx : Ray := { origin := ⟨0, 0, 0⟩, direction := ⟨1, 0, 0⟩ }

/-- C4: the code does NOT ignore a pointer move whose ray misses the drag
plane.  `Ray.intersectPlane` returns no intersection for this parallel ray,
yet `handlePointerMove` still runs its move body with the stale
`intersectionPoint` ref: the position of the selected instance changes (here it
jumps by `(0,0,0) - (5,0,0)`) and the session `dragStartPos` is
overwritten with the stale point, while the controller stays in Dragging.
The source guard `if (intersectionPoint.current)` tests the `Vector3` object
held by the ref, which is always truthy, instead of the `null` returned by
`intersectPlane`, so the intended no-op never happens. -/
theorem pointerMove_parallel_ray_not_ignored :
    rayParallelEx.intersectPlane stDragEx.plane = none ∧
    (handlePointerMove stDragEx dDragEx rayParallelEx).2.positions ≠
      dDragEx.positions ∧
    (handlePointerMove stDragEx dDragEx rayParallelEx).2.positions = [0, 0, 0] ∧
    (handlePointerMove stDragEx dDragEx rayParallelEx).1.dragStartPos ≠
      stDragEx.dragStartPos ∧
    (handlePointerMove stDragEx dDragEx rayParallelEx).1.isDragging = true := by
  have hd : rayParallelEx.intersectPlane stDragEx.plane = none := by
    unfold Ray.intersectPlane Ray.distanceToPlane Plane.distanceToPoint V3.dot
      rayParallelEx stDragEx
    norm_num
  have hmove : handlePointerMove stDragEx dDragEx rayParallelEx =
      ({ isDragging := true
        , draggedIndex := some 0
        , plane := { normal := ⟨0, 0, 1⟩, constant := -1 }
        , intersectionPoint := ⟨0, 0, 0⟩
        , dragStartPos := ⟨0, 0, 0⟩ },
        { count := 1, positions := [0, 0, 0], colors := [1, 0, 0]
        , selected := [true] }) := by
    unfold handlePointerMove
    rw [hd]
    simp only [stDragEx, dDragEx, moveSelected, moveLoop, V3.sub]
    norm_num [List.set]
    simp
  refine ⟨hd, ?_, ?_, ?_, ?_⟩
  · rw [hmove]
    decide
  · rw [hmove]
  · rw [hmove]
    decide
  · rw [hmove]
